import Mathlib

/-!
Verification development for the entropy-based compliment selection engine
(Shipmas Day 1 repository): a shallow embedding of `src/lib/entropy.ts`,
`src/lib/complimentGenerator.ts` and the validation/clamping prologue of
`src/app/api/compliment/route.ts`, together with theorems settling the
frozen specification claims.

Modelling conventions:
- JavaScript 64-bit BigInt arithmetic is `Nat` arithmetic explicitly reduced
  mod 2^64.
- A JavaScript `number` obtained from `Number(z)` for a BigInt `z` is the
  IEEE-754 double nearest to `z` (ties to even); `roundNat53` computes that
  double exactly as a natural number (all values arising here are
  non-negative integers with at most 64 bits, so the double is an integer).
- Division of such a double by the power of two `0x100000000` is exact in
  IEEE-754, so it is modelled as exact division in `ℚ`.
- Fallible code is modelled with `Except`: indexing a JS array out of
  bounds yields `undefined`, and the subsequent property access throws a
  `TypeError`; the model returns `SelError.undefinedAccess` there.
-/

/-- Number of binary digits of `n` in excess of 53, computed by repeated
halving (fuel-based so that the kernel can evaluate it). -/
def bitsAbove53 : Nat → Nat → Nat
  | 0, _ => 0
  | fuel + 1, n => if n < 2 ^ 53 then 0 else bitsAbove53 fuel (n / 2) + 1

/-- The IEEE-754 binary64 value of `Number(z)` for a non-negative BigInt `z`:
round `z` to 53 significant bits, ties to even.  For `z < 2^53` this is `z`
itself. -/
def roundNat53 (n : Nat) : Nat :=
  let e := bitsAbove53 200 n
  if e = 0 then n
  else
    let p := 2 ^ e
    let q := n / p
    let r := n % p
    let half := p / 2
    (if half < r ∨ (r = half ∧ q % 2 = 1) then q + 1 else q) * p

namespace SplitMix64

/-- `this.state = (this.state + 0x9e3779b97f4a7c15n) & 0xffffffffffffffffn`. -/
def advance (s : Nat) : Nat := (s + 0x9e3779b97f4a7c15) % 2 ^ 64

/-- The three xor-shift/multiply mixing rounds of `SplitMix64.next()`. -/
def mix (s : Nat) : Nat :=
  let z1 := ((s ^^^ (s >>> 30)) * 0xbf58476d1ce4e5b9) % 2 ^ 64
  let z2 := ((z1 ^^^ (z1 >>> 27)) * 0x94d049bb133111eb) % 2 ^ 64
  (z2 ^^^ (z2 >>> 31)) % 2 ^ 64

/-- One state advance: returns the new state and the mixed 64-bit value `z`
of `next()` just before the final `Number(z) / 0x100000000` conversion. -/
def nextZ (s : Nat) : Nat × Nat := (advance s, mix (advance s))

/-- The value returned by `next()`: `Number(z) / 0x100000000` as an exact
rational (the division by `2^32` is exact in IEEE-754). -/
def nextVal (s : Nat) : Nat × ℚ :=
  let (s2, z) := nextZ s
  (s2, (roundNat53 z : ℚ) / 2 ^ 32)

/-- The value returned by `nextInt(max)` = `Math.floor(next() * max)` for a
natural `max`: the double product rounds `roundNat53 z * max` to 53
significant bits, the division by `2^32` is exact, and `Math.floor` on the
result is natural division. -/
def nextIntN (s : Nat) (max : Nat) : Nat × Nat :=
  let (s2, z) := nextZ s
  (s2, roundNat53 (roundNat53 z * max) / 2 ^ 32)

end SplitMix64

/-! ## SHA-256 (`crypto.createHash('sha256')`), executable over byte lists -/

namespace Sha256

def rotr32 (n x : Nat) : Nat := ((x >>> n) ||| (x <<< (32 - n))) % 2 ^ 32

def bsig0 (x : Nat) : Nat := rotr32 2 x ^^^ rotr32 13 x ^^^ rotr32 22 x
def bsig1 (x : Nat) : Nat := rotr32 6 x ^^^ rotr32 11 x ^^^ rotr32 25 x
def ssig0 (x : Nat) : Nat := rotr32 7 x ^^^ rotr32 18 x ^^^ (x >>> 3)
def ssig1 (x : Nat) : Nat := rotr32 17 x ^^^ rotr32 19 x ^^^ (x >>> 10)

/-- The 64 round constants of FIPS 180-4 (written in decimal). -/
def K : List Nat :=
  [1116352408, 1899447441, 3049323471, 3921009573, 961987163, 1508970993,
   2453635748, 2870763221, 3624381080, 310598401, 607225278, 1426881987,
   1925078388, 2162078206, 2614888103, 3248222580, 3835390401, 4022224774,
   264347078, 604807628, 770255983, 1249150122, 1555081692, 1996064986,
   2554220882, 2821834349, 2952996808, 3210313671, 3336571891, 3584528711,
   113926993, 338241895, 666307205, 773529912, 1294757372, 1396182291,
   1695183700, 1986661051, 2177026350, 2456956037, 2730485921, 2820302411,
   3259730800, 3345764771, 3516065817, 3600352804, 4094571909, 275423344,
   430227734, 506948616, 659060556, 883997877, 958139571, 1322822218,
   1537002063, 1747873779, 1955562222, 2024104815, 2227730452, 2361852424,
   2428436474, 2756734187, 3204031479, 3329325298]

/-- The eight initial hash words of FIPS 180-4 (written in decimal). -/
def H0 : List Nat :=
  [1779033703, 3144134277, 1013904242, 2773480762,
   1359893119, 2600822924, 528734635, 1541459225]

/-- Append the SHA-256 padding to a byte string: a `0x80` byte, zero bytes up
to 56 mod 64, then the bit length as 8 big-endian bytes. -/
def padMsg (m : List Nat) : List Nat :=
  let len := m.length
  let bitLen := 8 * len
  let zeros := (56 + 64 - (len + 1) % 64) % 64
  m ++ 0x80 :: List.replicate zeros 0 ++
    [(bitLen >>> 56) % 256, (bitLen >>> 48) % 256, (bitLen >>> 40) % 256,
     (bitLen >>> 32) % 256, (bitLen >>> 24) % 256, (bitLen >>> 16) % 256,
     (bitLen >>> 8) % 256, bitLen % 256]

/-- Big-endian 32-bit words from bytes. -/
def toWords : List Nat → List Nat
  | a :: b :: c :: d :: rest =>
      (a * 2 ^ 24 + b * 2 ^ 16 + c * 2 ^ 8 + d) :: toWords rest
  | _ => []

/-- Split a word list into 16-word blocks. -/
def toBlocks : List Nat → List (List Nat)
  | w0 :: w1 :: w2 :: w3 :: w4 :: w5 :: w6 :: w7 ::
    w8 :: w9 :: w10 :: w11 :: w12 :: w13 :: w14 :: w15 :: rest =>
      [w0, w1, w2, w3, w4, w5, w6, w7, w8, w9, w10, w11, w12, w13, w14, w15]
        :: toBlocks rest
  | _ => []

/-- Extend a 16-word block to the 64-word message schedule. -/
def schedule (block : List Nat) : List Nat :=
  (List.range 48).foldl
    (fun w _ =>
      let n := w.length
      w ++ [(ssig1 (w.getD (n - 2) 0) + w.getD (n - 7) 0 +
             ssig0 (w.getD (n - 15) 0) + w.getD (n - 16) 0) % 2 ^ 32])
    block

structure St where
  a : Nat
  b : Nat
  c : Nat
  d : Nat
  e : Nat
  f : Nat
  g : Nat
  h : Nat

def round (st : St) (kw : Nat × Nat) : St :=
  let ch := (st.e &&& st.f) ^^^ ((2 ^ 32 - 1 - st.e) &&& st.g)
  let maj := (st.a &&& st.b) ^^^ (st.a &&& st.c) ^^^ (st.b &&& st.c)
  let t1 := (st.h + bsig1 st.e + ch + kw.1 + kw.2) % 2 ^ 32
  let t2 := (bsig0 st.a + maj) % 2 ^ 32
  ⟨(t1 + t2) % 2 ^ 32, st.a, st.b, st.c, (st.d + t1) % 2 ^ 32, st.e, st.f, st.g⟩

def compress (h : List Nat) (block : List Nat) : List Nat :=
  let w := schedule block
  let s0 : St := ⟨h.getD 0 0, h.getD 1 0, h.getD 2 0, h.getD 3 0,
                  h.getD 4 0, h.getD 5 0, h.getD 6 0, h.getD 7 0⟩
  let s := (K.zip w).foldl round s0
  List.zipWith (fun x y => (x + y) % 2 ^ 32) h
    [s.a, s.b, s.c, s.d, s.e, s.f, s.g, s.h]

def digestWords (msg : List Nat) : List Nat :=
  (toBlocks (toWords (padMsg msg))).foldl compress H0

def hexDigit (n : Nat) : Char :=
  if n < 10 then Char.ofNat (48 + n) else Char.ofNat (87 + n)

def wordHex (n : Nat) : String :=
  String.mk ((List.range 8).map fun i => hexDigit ((n >>> (28 - 4 * i)) % 16))

/-- UTF-8 encoding of one Unicode code point. -/
def utf8Bytes (c : Nat) : List Nat :=
  if c < 0x80 then [c]
  else if c < 0x800 then [0xC0 + c / 64, 0x80 + c % 64]
  else if c < 0x10000 then [0xE0 + c / 4096, 0x80 + c / 64 % 64, 0x80 + c % 64]
  else [0xF0 + c / 262144, 0x80 + c / 4096 % 64, 0x80 + c / 64 % 64, 0x80 + c % 64]

def strBytes (s : String) : List Nat :=
  s.data.foldr (fun c acc => utf8Bytes c.toNat ++ acc) []

/-- Lowercase-hex SHA-256 digest of a string (UTF-8 encoded), 64 characters:
the model of `crypto.createHash('sha256').update(s).digest('hex')`. -/
def hexDigest (s : String) : String :=
  (digestWords (strBytes s)).foldl (fun acc w => acc ++ wordHex w) ""

end Sha256

/-- `hashFingerprint` from `src/lib/entropy.ts`. -/
def hashFingerprint (fingerprint : String) : String := Sha256.hexDigest fingerprint

/-- Value of a hexadecimal digit character (`BigInt('0x…')` parsing; only
applied to lowercase-hex SHA-256 output in this development). -/
def hexDigitVal (c : Char) : Nat :=
  if 48 ≤ c.toNat ∧ c.toNat ≤ 57 then c.toNat - 48
  else if 97 ≤ c.toNat ∧ c.toNat ≤ 102 then c.toNat - 87
  else if 65 ≤ c.toNat ∧ c.toNat ≤ 70 then c.toNat - 55
  else 0

/-- `hashToSeed` from `src/lib/entropy.ts`: the first 16 hex characters of
the hash as a 64-bit integer. -/
def hashToSeed (hash : String) : Nat :=
  (hash.data.take 16).foldl (fun a c => a * 16 + hexDigitVal c) 0

/-! ## Whitespace normalization: `text.trim().replace(/\s+/g, ' ')` -/

/-- The JavaScript `\s` character class (also the set removed by
`String.prototype.trim`). -/
def isWS (c : Char) : Bool :=
  [9, 10, 11, 12, 13, 32, 0xa0, 0x1680, 0x2000, 0x2001, 0x2002, 0x2003,
   0x2004, 0x2005, 0x2006, 0x2007, 0x2008, 0x2009, 0x200a, 0x2028, 0x2029,
   0x202f, 0x205f, 0x3000, 0xfeff].contains c.toNat

/-- `String.prototype.trim`: drop leading and trailing whitespace. -/
def trimWS (l : List Char) : List Char :=
  ((l.dropWhile isWS).reverse.dropWhile isWS).reverse

/-- `replace(/\s+/g, ' ')`: each maximal whitespace run becomes one space.
The flag records whether the previous character was part of a run whose
space has already been emitted. -/
def collapseGo : Bool → List Char → List Char
  | _, [] => []
  | prevWS, c :: rest =>
    if isWS c then
      if prevWS then collapseGo true rest else ' ' :: collapseGo true rest
    else c :: collapseGo false rest

/-- The candidate normalization `text.trim().replace(/\s+/g, ' ')` used by
`selectComplimentFromCandidates` (and `normalizeCompliment` in the route). -/
def normalizeWS (s : String) : String := ⟨collapseGo false (trimWS s.data)⟩

/-- Accumulator-style splitting of a character list into its maximal
whitespace-free words (specification device for the normalization claims). -/
def wordsGo : List Char → List Char → List (List Char)
  | cur, [] => if cur.isEmpty then [] else [cur.reverse]
  | cur, c :: rest =>
    if isWS c then
      if cur.isEmpty then wordsGo [] rest else cur.reverse :: wordsGo [] rest
    else wordsGo (c :: cur) rest

def wordsOf (l : List Char) : List (List Char) := wordsGo [] l

/-- Join words with single spaces. -/
def joinSp : List (List Char) → List Char
  | [] => []
  | [w] => w
  | w :: w2 :: ws => w ++ ' ' :: joinSp (w2 :: ws)

/-- Canonical-form checker: `canonF b l` holds when `l` consists of
non-whitespace characters and single `' '` separators, never two in a row,
never at the end, and not at the start when `b` is true.  (`canonF b []`
is `!b`; the empty string is handled separately.) -/
def canonF : Bool → List Char → Bool
  | b, [] => !b
  | b, c :: t => if c = ' ' then !b && canonF true t else !isWS c && canonF false t

/-! ## Fingerprint builder (`buildFingerprint` in `src/lib/entropy.ts`)

The source formats `smooth01(x, k).toFixed(10)` (IEEE-754 `Math.exp`, whose
precise value ECMAScript leaves implementation-approximated) and serializes
raw numbers with JavaScript number-to-string.  The embedding abstracts the
two serializations as parameters: `fmt x k` stands for
`smooth01(x, k).toFixed(10)` and `numStr q` for the template-literal string
of the number.  Everything downstream of the produced string is concrete. -/

structure UserSignals where
  pixelsMoved : ℚ
  clicks : ℚ
  idleMs : ℚ
deriving DecidableEq

structure EnvData where
  w : ℚ
  h : ℚ
  dpr : ℚ
  tzOffset : ℚ
deriving DecidableEq

/-- `parts.join('|')`. -/
def joinBar : List String → String
  | [] => ""
  | [p] => p
  | p :: q :: ps => p ++ "|" ++ joinBar (q :: ps)

def buildFingerprint (fmt : ℚ → ℚ → String) (numStr : ℚ → String)
    (signals : UserSignals) (userKey : String) (env : EnvData)
    (sessionNonce : Option String) : String :=
  joinBar
    (["m:" ++ fmt signals.pixelsMoved 5000,
      "c:" ++ fmt signals.clicks 10,
      "i:" ++ fmt signals.idleMs 3000,
      "rawM:" ++ numStr signals.pixelsMoved,
      "rawC:" ++ numStr signals.clicks,
      "rawI:" ++ numStr signals.idleMs,
      "env:" ++ numStr env.w ++ "x" ++ numStr env.h ++ ":" ++
        numStr env.dpr ++ ":" ++ numStr env.tzOffset,
      "user:" ++ userKey] ++
     -- `if (sessionNonce)` is a JS truthiness test: an absent nonce and the
     -- empty string both skip the nonce segment.
     (match sessionNonce with
      | some n => if n = "" then [] else ["nonce:" ++ n]
      | none => []))

/-- `computeEntropyKey` from `src/lib/entropy.ts`. -/
def computeEntropyKey (fmt : ℚ → ℚ → String) (numStr : ℚ → String)
    (signals : UserSignals) (userKey : String) (env : EnvData)
    (sessionNonce : Option String) : String :=
  hashFingerprint (buildFingerprint fmt numStr signals userKey env sessionNonce)

/-! ## Candidate selector (`selectComplimentFromCandidates`) -/

/-- Failure modes: the explicit `throw new Error('No compliments available')`
and the `TypeError` raised by reading `.text`/`.trim` on the `undefined`
produced by an out-of-bounds array index. -/
inductive SelError
  | emptyPool
  | undefinedAccess
deriving DecidableEq

structure SelResult where
  complimentText : String
  complimentHash : String
  fingerprintHash : String
deriving DecidableEq

/-- The `seenInBatch`/`avoidHashes` filter over the hashed candidates: keep
the first occurrence of each hash, drop any hash in the avoid list. -/
def dedupFilter : List (String × String) → List String → List String →
    List (String × String)
  | [], _, _ => []
  | p :: rest, avoid, seen =>
    if p.2 ∈ seen ∨ p.2 ∈ avoid then dedupFilter rest avoid seen
    else p :: dedupFilter rest avoid (p.2 :: seen)

/-- The `while (attempts < maxAttempts)` retry loop of the all-avoided
branch, followed by the `candidates[0]` last resort.  The state is the PRNG
state; the fuel is the remaining attempt count. -/
def exhaustLoop (candidates : List String) (avoid : List String)
    (fpHash : String) : Nat → Nat → Except SelError SelResult
  | _, 0 =>
    match candidates with
    | [] => .error .undefinedAccess
    | c :: _ =>
      let t := normalizeWS c
      .ok ⟨t, hashFingerprint t, fpHash⟩
  | st, fuel + 1 =>
    let idx := (SplitMix64.nextIntN st candidates.length).2
    match candidates.get? idx with
    | none => .error .undefinedAccess
    | some c =>
      let t := normalizeWS c
      let h := hashFingerprint t
      if h ∈ avoid then
        exhaustLoop candidates avoid fpHash
          (SplitMix64.nextIntN st candidates.length).1 fuel
      else .ok ⟨t, h, fpHash⟩

def selectComplimentFromCandidates (fmt : ℚ → ℚ → String) (numStr : ℚ → String)
    (signals : UserSignals) (userKey : String) (env : EnvData)
    (candidates : List String) (avoidHashes : List String)
    (sessionNonce : Option String) : Except SelError SelResult :=
  if candidates.length = 0 then .error .emptyPool
  else
    let fingerprint := buildFingerprint fmt numStr signals userKey env sessionNonce
    let hash := hashFingerprint fingerprint
    let seed := hashToSeed hash
    let candidateHashes := candidates.map fun text =>
      let normalized := normalizeWS text
      (normalized, hashFingerprint normalized)
    let validCandidates := dedupFilter candidateHashes avoidHashes []
    if validCandidates.length = 0 then
      exhaustLoop candidates avoidHashes hash seed (min candidates.length 50)
    else
      let selectedIndex := (SplitMix64.nextIntN seed validCandidates.length).2
      match validCandidates.get? selectedIndex with
      | none => .error .undefinedAccess
      | some selected => .ok ⟨selected.1, selected.2, hash⟩

/-! ## Template compliment generator (`src/lib/complimentGenerator.ts`)

The phrase banks are transcribed verbatim (apostrophes written as the
escape `'`).  The float arithmetic on weights is modelled exactly over
`ℚ`; the properties proved about the generator (determinism, and that the
output is a composition of bank members) do not depend on rounding.  The
`smooth01` of the generator (no `k ≤ 0` branch, `Math.exp`
implementation-approximated) is abstracted as the parameter `norm`. -/

def openers : List String :=
  ["You have", "There's something", "I notice", "You bring", "You hold",
   "You carry", "You show", "You offer", "You create", "You find",
   "You make", "You keep", "You know", "You see", "You feel",
   "You move", "You stay", "You choose", "You let", "You give"]

def traitStatements : List String :=
  ["a quiet kind of confidence", "a steady presence", "a patient way of seeing",
   "a calm kind of precision", "a gentle kind of strength", "a thoughtful approach",
   "a measured way of moving", "a quiet kind of wisdom", "a still kind of power",
   "a patient kind of curiosity", "a calm kind of focus", "a steady kind of grace",
   "a quiet kind of courage", "a measured kind of energy", "a gentle kind of persistence",
   "a restless curiosity", "an exploratory mind", "a wandering kind of attention",
   "a searching kind of energy", "a curious kind of movement", "an adventurous spirit",
   "a wide kind of seeing", "a roaming kind of focus", "a restless kind of intelligence",
   "an exploratory kind of presence", "a wandering kind of wisdom",
   "a searching kind of grace", "a curious kind of strength",
   "an adventurous kind of patience", "a wide kind of understanding",
   "a decisively playful way", "a direct kind of curiosity", "a quick kind of learning",
   "a decisive kind of exploration", "a sharp kind of attention",
   "a focused kind of energy", "a precise kind of movement", "a direct kind of presence",
   "a quick kind of understanding", "a sharp kind of wisdom",
   "a focused kind of curiosity", "a precise kind of exploration",
   "a decisive kind of patience", "a direct kind of strength", "a quick kind of grace",
   "a thoughtful kind of energy", "a measured kind of curiosity",
   "a steady kind of exploration", "a calm kind of playfulness",
   "a patient kind of decisiveness", "a gentle kind of directness",
   "a quiet kind of action", "a still kind of movement",
   "a thoughtful kind of restlessness", "a measured kind of adventure",
   "a steady kind of searching", "a calm kind of testing",
   "a patient kind of exploring", "a gentle kind of wandering",
   "a quiet kind of learning", "a still kind of curiosity",
   "a thoughtful kind of play", "a measured kind of energy",
   "a steady kind of presence", "a calm kind of intelligence"]

def evidenceLines : List String :=
  ["You don't rush the moment", "You let things settle", "You give things room",
   "You wait for the right shape", "You let time do its work",
   "You don't force the answer", "You trust the process", "You let things land",
   "You give space to what matters", "You don't hurry the understanding",
   "You let clarity find you", "You wait for things to speak",
   "You give moments their weight", "You don't rush to conclusions",
   "You let patterns emerge",
   "You explore until you find the shape", "You touch the edges to learn",
   "You wander until something clicks", "You search until it makes sense",
   "You move until you see the pattern", "You explore until the world opens",
   "You test boundaries to understand", "You roam until you find your way",
   "You wander until clarity arrives", "You explore until things connect",
   "You move until the picture forms", "You search until meaning appears",
   "You test until systems speak back", "You explore until patterns reveal",
   "You wander until understanding comes",
   "You test things until they speak back", "You don't just watch, you engage",
   "You negotiate with systems", "You interact until you understand",
   "You probe until things respond", "You engage until clarity comes",
   "You test until patterns emerge", "You interact until meaning forms",
   "You probe until systems reveal", "You engage until things connect",
   "You test until understanding arrives", "You interact until the picture forms",
   "You probe until clarity appears", "You engage until patterns speak",
   "You test until meaning emerges",
   "You find the balance between action and stillness",
   "You know when to move and when to wait", "You blend curiosity with patience",
   "You combine exploration with presence", "You mix playfulness with thoughtfulness",
   "You balance energy with calm", "You weave movement with stillness",
   "You combine testing with waiting", "You blend directness with gentleness",
   "You mix decisiveness with patience", "You balance exploration with focus",
   "You combine wandering with presence", "You blend restlessness with calm",
   "You mix searching with settling", "You balance action with observation"]

def closers : List String :=
  ["That's rare.", "That's a gift.", "That's how builders think.",
   "That's how artists see.", "That's a rare skill.", "That matters.",
   "That's valuable.", "That's how wisdom works.",
   "That's how understanding grows.", "That's how presence feels.",
   "That's how learning happens.", "That's how curiosity moves.",
   "That's how patience pays.", "That's how exploration rewards.",
   "That's how presence builds."]

structure StyleVec where
  tempo : ℚ
  softness : ℚ
  spark : ℚ
deriving DecidableEq

/-- `computeStyleVector`, with the generator-local `smooth01` float
computation abstracted as `norm`. -/
def computeStyleVector (norm : ℚ → ℚ → ℚ) (pixelsMoved clicks idleMs : ℚ) :
    StyleVec :=
  let m := norm pixelsMoved 5000
  let c := norm clicks 10
  let i := norm idleMs 5000
  ⟨0.6 * c + 0.4 * (1 - i), 0.7 * i + 0.3 * (1 - c), 0.7 * m + 0.3 * c⟩

/-- The loop of `weightedSelect`: subtract successive weights from the
already-scaled draw, returning the first item at which the remainder is
non-positive. -/
def weightedSelectGo {α : Type} : ℚ → List (α × ℚ) → Option α
  | _, [] => none
  | u, (x, w) :: rest => if u - w ≤ 0 then some x else weightedSelectGo (u - w) rest

/-- `weightedSelect(items, weights, rng)` given the draw `u = rng.nextDouble()`.
All call sites build `weights` as a map over `items`, so the two lists have
equal length and the zip loses nothing.  The trailing
`return items[items.length - 1]` is the `getLast?` fallback. -/
def weightedSelect {α : Type} (items : List α) (weights : List ℚ) (u : ℚ) :
    Option α :=
  let totalWeight := weights.foldl (· + ·) 0
  match weightedSelectGo (u * totalWeight) (items.zip weights) with
  | some x => some x
  | none => items.getLast?

/-- The weight formula shared by the trait and evidence `map((_, i) => …)`
lambdas in `generateCompliment`. -/
def styleWeight (style : StyleVec) (i : Nat) : ℚ :=
  if i < 15 then 0.5 + style.softness * 1.5
  else if i < 30 then 0.5 + style.spark * 1.5
  else if i < 45 then 0.5 + style.tempo * 1.5
  else 0.5 + (1 - |style.tempo - style.softness|) * 1.0

/-- A JS template literal renders `undefined` as the string "undefined". -/
def jsStr (o : Option String) : String := o.getD "undefined"

/-- `generateCompliment` from `src/lib/complimentGenerator.ts`.  The four
bank selections each consume one PRNG draw, in source order.  The
punctuation-variation branches after composition replace matched text by
identical text (both `replace` calls are the identity on the composed
string), so the returned value is exactly the composition; the extra PRNG
draws they make are discarded with the generator-local PRNG. -/
def generateCompliment (norm : ℚ → ℚ → ℚ) (keyHex : String)
    (pixelsMoved clicks idleMs : ℚ) : String :=
  let seed := hashToSeed keyHex
  let style := computeStyleVector norm pixelsMoved clicks idleMs
  let s1 := (SplitMix64.nextVal seed).1
  let opener := jsStr (weightedSelect openers (openers.map fun _ => 1.0)
    (SplitMix64.nextVal seed).2)
  let s2 := (SplitMix64.nextVal s1).1
  let trait := jsStr (weightedSelect traitStatements
    ((List.range traitStatements.length).map (styleWeight style))
    (SplitMix64.nextVal s1).2)
  let s3 := (SplitMix64.nextVal s2).1
  let evidence := jsStr (weightedSelect evidenceLines
    ((List.range evidenceLines.length).map (styleWeight style))
    (SplitMix64.nextVal s2).2)
  let closer := jsStr (weightedSelect closers
    (closers.map fun _ => 0.8 + style.softness * 0.4)
    (SplitMix64.nextVal s3).2)
  opener ++ " " ++ trait ++ ". " ++ evidence ++ ". " ++ closer

/-! ## Route validation and clamping (`src/app/api/compliment/route.ts`)

The JSON body fields that the validation prologue inspects are modelled as
JavaScript values.  `Math.max(0, Math.min(v, limit))` coerces its argument
to a number (`undefined` → NaN, `null` → 0), so the result is always of
type `number`, making the subsequent `typeof clamped… !== 'number'` checks
constantly false. -/

inductive JVal
  | undef
  | jnull
  | num (q : ℚ)
  | nanV
  | posInf
  | negInf
deriving DecidableEq

/-- An IEEE-754 double: NaN, an infinity, or a finite value. -/
inductive JNum
  | nan
  | pinf
  | ninf
  | fin (q : ℚ)
deriving DecidableEq

/-- JavaScript `ToNumber` on the modelled values. -/
def toNumber : JVal → JNum
  | .undef => .nan
  | .jnull => .fin 0
  | .num q => .fin q
  | .nanV => .nan
  | .posInf => .pinf
  | .negInf => .ninf

/-- `Math.min` (NaN-propagating). -/
def jsMin : JNum → JNum → JNum
  | .nan, _ => .nan
  | _, .nan => .nan
  | .ninf, _ => .ninf
  | _, .ninf => .ninf
  | .pinf, b => b
  | a, .pinf => a
  | .fin a, .fin b => .fin (min a b)

/-- `Math.max` (NaN-propagating). -/
def jsMax : JNum → JNum → JNum
  | .nan, _ => .nan
  | _, .nan => .nan
  | .pinf, _ => .pinf
  | _, .pinf => .pinf
  | .ninf, b => b
  | a, .ninf => a
  | .fin a, .fin b => .fin (max a b)

/-- The JavaScript comparison `a <= b` (false whenever an operand is NaN). -/
def jsLe : JNum → JNum → Bool
  | .nan, _ => false
  | _, .nan => false
  | .ninf, _ => true
  | _, .ninf => false
  | _, .pinf => true
  | .pinf, _ => false
  | .fin a, .fin b => decide (a ≤ b)

/-- `Math.max(0, Math.min(v, limit))`. -/
def clampField (v : JVal) (limit : ℚ) : JNum :=
  jsMax (.fin 0) (jsMin (toNumber v) (.fin limit))

/-- `typeof v === 'number'` (NaN and the infinities are numbers). -/
def isNumberType : JVal → Bool
  | .num _ => true
  | .nanV => true
  | .posInf => true
  | .negInf => true
  | _ => false

/-- The request-body fields inspected by the POST handler validation:
the three signal values as received, whether `userKey` is a string,
whether `env` is present (truthy) with its four fields, and whether
`avoidHashes` is an array. -/
structure RequestBody where
  pixelsMoved : JVal
  clicks : JVal
  idleMs : JVal
  userKeyIsString : Bool
  envPresent : Bool
  envW : JVal
  envH : JVal
  envDpr : JVal
  envTz : JVal
  avoidIsArray : Bool
deriving DecidableEq

structure ClampedSignals where
  pixelsMoved : JNum
  clicks : JNum
  idleMs : JNum
deriving DecidableEq

/-- The validation-and-clamping prologue of `POST`: clamp the three signal
fields, then run the `if (… )` reject check.  Returns the signals actually
used for selection, or `none` for an HTTP 400 rejection.  The three
`typeof clamped… !== 'number'` disjuncts are omitted because they are
identically false (`Math.max` always returns a number). -/
def validateAndClamp (body : RequestBody) : Option ClampedSignals :=
  let clampedPixelsMoved := clampField body.pixelsMoved 1000000
  let clampedClicks := clampField body.clicks 10000
  let clampedIdleMs := clampField body.idleMs 60000
  if body.userKeyIsString && body.envPresent && isNumberType body.envW &&
      isNumberType body.envH && isNumberType body.envDpr &&
      isNumberType body.envTz && body.avoidIsArray then
    some ⟨clampedPixelsMoved, clampedClicks, clampedIdleMs⟩
  else none

/-! ## Continuous normalizer (`smooth01` in `src/lib/entropy.ts`),
idealized over the reals -/

noncomputable def smooth01 (x k : ℝ) : ℝ :=
  if k ≤ 0 then (if 0 < x then 1 else 0) else 1 - Real.exp (-x / k)

/-! ## Concrete instances used in witnesses and counterexamples -/

instance {ε α : Type} [DecidableEq ε] [DecidableEq α] : DecidableEq (Except ε α) :=
  fun a b =>
    match a, b with
    | .error x, .error y =>
      match decEq x y with
      | isTrue h => isTrue (h ▸ rfl)
      | isFalse h => isFalse fun hh => h (Except.error.inj hh)
    | .error _, .ok _ => isFalse fun hh => Except.noConfusion hh
    | .ok _, .error _ => isFalse fun hh => Except.noConfusion hh
    | .ok x, .ok y =>
      match decEq x y with
      | isTrue h => isTrue (h ▸ rfl)
      | isFalse h => isFalse fun hh => h (Except.ok.inj hh)

/-- The exact string the source produces for `smooth01(0, k).toFixed(10)`:
`Math.exp(-0/k)` is exactly 1, so the formatted value is `0.0000000000`.
All concrete runs below use zero signals, where this is the (unique)
faithful instantiation of the `fmt` parameter. -/
def fmtZ : ℚ → ℚ → String := fun _ _ => "0.0000000000"

/-- JavaScript number-to-string on the non-negative integers used in the
concrete runs (a template literal renders the integer double 100 as
`100`). -/
def numStrQ : ℚ → String := fun q => Nat.repr q.num.toNat

def sig0 : UserSignals := ⟨0, 0, 0⟩

def envC : EnvData := ⟨100, 100, 1, 0⟩

/-! ## Claim C1 -/

/-- Claim C1 is false of the code: `next()` divides the full 64-bit mixed
value by `2^32`, not by `2^64`, so from seed state 0 the first draw is
`16294208416658608128 / 2^32` (about 3.79e9), far outside `[0, 1)`, and
`nextInt(3)` returns `11381373100`, outside `[0, 3)`.  This contradicts
the source comment on the same lines (`Convert to [0, 1) range`), so the
claim is recorded as a code bug; this theorem evaluates the code at the
failing input. -/
theorem splitmix_next_escapes_unit_interval :
    (SplitMix64.nextVal 0).2 = (16294208416658608128 : ℚ) / 2 ^ 32 ∧
    ¬ (SplitMix64.nextVal 0).2 < 1 ∧
    (SplitMix64.nextIntN 0 3).2 = 11381373100 ∧
    ¬ (SplitMix64.nextIntN 0 3).2 < 3 := by
  have hz : roundNat53 (SplitMix64.mix (SplitMix64.advance 0)) = 16294208416658608128 := by
    decide
  have hval : (SplitMix64.nextVal 0).2 = (16294208416658608128 : ℚ) / 2 ^ 32 := by
    simp only [SplitMix64.nextVal, SplitMix64.nextZ, hz]
    norm_num
  refine ⟨hval, ?_, by decide, by decide⟩
  rw [hval]
  rw [div_lt_one (by norm_num : (0 : ℚ) < 2 ^ 32)]
  norm_num

/-! ## Claim C2 -/

set_option maxRecDepth 40000 in
/-- Claim C2 is false of the code: on the non-empty pool
`["X", "Y", "Z"]` with zero signals, user key `u1`, environment
100x100:1:0, no nonce and an empty avoid set, the selector draws
`nextInt(3) = 8128275641` (a consequence of the `next()` range bug),
indexes `validCandidates` out of bounds, and throws a `TypeError` instead
of returning a pair.  The `EmptyPoolError` half of the claim does hold:
the empty pool is the only input that raises it (second conjunct
evaluates that branch). -/
theorem selector_throws_on_nonempty_pool :
    selectComplimentFromCandidates fmtZ numStrQ sig0 "u1" envC
        ["X", "Y", "Z"] [] none = .error .undefinedAccess ∧
    selectComplimentFromCandidates fmtZ numStrQ sig0 "u1" envC
        [] [] none = .error .emptyPool := by
  refine ⟨by decide, by decide⟩

/-! ## Claim C7 -/

/-- A request body whose `pixelsMoved` field is absent and whose remaining
fields are well-typed. -/
def bodyMissingPixels : RequestBody :=
  ⟨.undef, .num 5, .num 100, true, true, .num 100, .num 100, .num 1, .num 0, true⟩

/-- Claim C7 is false of the code: the `typeof` checks run on the already
clamped values, and `Math.max(0, Math.min(undefined, 1000000))` is `NaN`,
which is of type `number`.  A body with `pixelsMoved` missing is therefore
not rejected, and the signal value actually used is `NaN`, which fails
`0 <= pixelsMoved <= 1000000` under JS comparison.  This theorem evaluates
the validation prologue at that failing input. -/
theorem route_accepts_missing_pixelsMoved :
    validateAndClamp bodyMissingPixels = some ⟨.nan, .fin 5, .fin 100⟩ ∧
    jsLe (.fin 0) JNum.nan = false ∧
    jsLe JNum.nan (.fin 1000000) = false := by
  refine ⟨by decide, by decide, by decide⟩

/-! ## Claim C4 -/

/-- Claim C4: the selector is deterministic and side-effect-free.  The
shallow embedding of `selectComplimentFromCandidates` is a pure function
of its arguments (the source touches no ambient state: it builds a fresh
PRNG from the seed derived from its own inputs), so two calls with equal
argument tuples produce equal outcomes — the same returned triple, or the
same thrown error. -/
theorem selector_deterministic (fmt : ℚ → ℚ → String) (numStr : ℚ → String)
    (a b : UserSignals × String × EnvData × List String × List String × Option String)
    (hab : a = b) :
    selectComplimentFromCandidates fmt numStr a.1 a.2.1 a.2.2.1 a.2.2.2.1
        a.2.2.2.2.1 a.2.2.2.2.2 =
    selectComplimentFromCandidates fmt numStr b.1 b.2.1 b.2.2.1 b.2.2.2.1
        b.2.2.2.2.1 b.2.2.2.2.2 := by
  rw [hab]

/-- Witness for `selector_deterministic` at a concrete argument tuple. -/
theorem selector_deterministic_witness :
    selectComplimentFromCandidates fmtZ numStrQ ⟨0, 0, 0⟩ "u1" envC ["X"] [] none =
    selectComplimentFromCandidates fmtZ numStrQ ⟨0 + 0, 0, 0⟩ "u1" envC ["X"] [] none :=
  selector_deterministic fmtZ numStrQ
    ⟨⟨0, 0, 0⟩, "u1", envC, ["X"], [], none⟩
    ⟨⟨0 + 0, 0, 0⟩, "u1", envC, ["X"], [], none⟩ (by simp)

/-! ## Claim C6 -/

/-- Claim C6: the contract of `smooth01`.  For `k > 0` it is
`1 - e^(-x/k)`; for `k ≤ 0` it returns 1 on positive `x` and 0 otherwise;
on `x ≥ 0`, `k > 0` it lies in `[0, 1)`, vanishes at `x = 0`, and is
strictly increasing in `x`. -/
theorem smooth01_contract :
    (∀ x k : ℝ, 0 < k → smooth01 x k = 1 - Real.exp (-x / k)) ∧
    (∀ x k : ℝ, k ≤ 0 → 0 < x → smooth01 x k = 1) ∧
    (∀ x k : ℝ, k ≤ 0 → x ≤ 0 → smooth01 x k = 0) ∧
    (∀ x k : ℝ, 0 ≤ x → 0 < k → 0 ≤ smooth01 x k ∧ smooth01 x k < 1) ∧
    (∀ k : ℝ, 0 < k → smooth01 0 k = 0) ∧
    (∀ x₁ x₂ k : ℝ, 0 < k → x₁ < x₂ → smooth01 x₁ k < smooth01 x₂ k) := by
  have hpos : ∀ x k : ℝ, 0 < k → smooth01 x k = 1 - Real.exp (-x / k) := by
    intro x k hk
    simp [smooth01, not_le.mpr hk]
  refine ⟨hpos, ?_, ?_, ?_, ?_, ?_⟩
  · intro x k hk hx
    simp [smooth01, hk, hx]
  · intro x k hk hx
    simp [smooth01, hk, not_lt.mpr hx]
  · intro x k hx hk
    rw [hpos x k hk]
    constructor
    · have h1 : Real.exp (-x / k) ≤ 1 := by
        rw [Real.exp_le_one_iff]
        exact div_nonpos_of_nonpos_of_nonneg (neg_nonpos_of_nonneg hx) hk.le
      linarith
    · have h2 : 0 < Real.exp (-x / k) := Real.exp_pos _
      linarith
  · intro k hk
    rw [hpos 0 k hk]
    simp
  · intro x₁ x₂ k hk hx
    rw [hpos x₁ k hk, hpos x₂ k hk]
    have : Real.exp (-x₂ / k) < Real.exp (-x₁ / k) := by
      apply Real.exp_lt_exp.mpr
      apply div_lt_div_of_pos_right _ hk
      linarith
    linarith

/-! ## Claim C9: whitespace-normalization theory

`normalizeWS` is characterized as joining the whitespace-separated words of
the input with single spaces; idempotence and whitespace-insensitivity
follow. -/

theorem isWS_space : isWS ' ' = true := by decide

theorem ne_space_of_not_isWS {c : Char} (h : isWS c = false) : ¬ c = ' ' := by
  intro he
  rw [he, isWS_space] at h
  cases h

theorem toFalse {b : Bool} (h : ¬ b = true) : b = false := by
  cases b
  · rfl
  · exact absurd rfl h

theorem collapseGo_false_ws {c : Char} (hc : isWS c = true) (t : List Char) :
    collapseGo false (c :: t) = ' ' :: collapseGo true t := by
  simp [collapseGo, hc]

theorem collapseGo_true_ws {c : Char} (hc : isWS c = true) (t : List Char) :
    collapseGo true (c :: t) = collapseGo true t := by
  simp [collapseGo, hc]

theorem collapseGo_nonws (b : Bool) {c : Char} (hc : isWS c = false)
    (t : List Char) : collapseGo b (c :: t) = c :: collapseGo false t := by
  cases b <;> simp [collapseGo, hc]

theorem canonF_false_space (X : List Char) :
    canonF false (' ' :: X) = canonF true X := by
  simp [canonF]

theorem canonF_space_cons (b : Bool) (t : List Char) :
    canonF b (' ' :: t) = (!b && canonF true t) := by
  simp [canonF]

theorem canonF_cons_nonspace (b : Bool) {c : Char} (hcs : ¬ c = ' ')
    (t : List Char) : canonF b (c :: t) = (!isWS c && canonF false t) := by
  simp [canonF, hcs]

theorem wordsGo_cons_ws_nil {c : Char} (hc : isWS c = true) (t : List Char) :
    wordsGo [] (c :: t) = wordsGo [] t := by
  simp [wordsGo, hc]

theorem wordsGo_cons_ws_cons {c : Char} (hc : isWS c = true) (x : Char)
    (xs t : List Char) :
    wordsGo (x :: xs) (c :: t) = (x :: xs).reverse :: wordsGo [] t := by
  simp [wordsGo, hc]

theorem wordsGo_cons_nonws {c : Char} (hc : isWS c = false)
    (cur t : List Char) : wordsGo cur (c :: t) = wordsGo (c :: cur) t := by
  simp [wordsGo, hc]

theorem wordsGo_ne_nil : ∀ (l cur : List Char), cur ≠ [] → wordsGo cur l ≠ [] := by
  intro l
  induction l with
  | nil =>
    intro cur h
    cases cur with
    | nil => exact absurd rfl h
    | cons x xs => simp [wordsGo]
  | cons c t ih =>
    intro cur h
    by_cases hc : isWS c = true
    · cases cur with
      | nil => exact absurd rfl h
      | cons x xs => simp [wordsGo, hc]
    · rw [wordsGo_cons_nonws (toFalse hc)]
      exact ih (c :: cur) (by simp)

theorem joinSp_cons (w : List Char) (X : List (List Char)) (h : X ≠ []) :
    joinSp (w :: X) = w ++ ' ' :: joinSp X := by
  cases X with
  | nil => exact absurd rfl h
  | cons y ys => rfl

theorem wordsGo_allws :
    ∀ ws : List Char, (∀ x ∈ ws, isWS x = true) →
      ∀ cur, wordsGo cur ws = wordsGo cur [] := by
  intro ws
  induction ws with
  | nil => intro _ _; rfl
  | cons w ws' ih =>
    intro hws cur
    have hw : isWS w = true := hws w (List.mem_cons_self _ _)
    have ih' := ih fun x hx => hws x (List.mem_cons_of_mem _ hx)
    cases cur with
    | nil => simp [wordsGo, hw, ih' []]
    | cons x xs => simp [wordsGo, hw, ih' []]

theorem wordsGo_append_ws (ws : List Char)
    (hws : ∀ x ∈ ws, isWS x = true) :
    ∀ (l cur : List Char), wordsGo cur (l ++ ws) = wordsGo cur l := by
  intro l
  induction l with
  | nil => intro cur; simpa using wordsGo_allws ws hws cur
  | cons c t ih =>
    intro cur
    by_cases hc : isWS c = true
    · cases cur with
      | nil => simp [wordsGo, hc, ih]
      | cons x xs => simp [wordsGo, hc, ih]
    · simp [wordsGo, hc, ih]

theorem wordsGo_dropWhile :
    ∀ l : List Char, wordsGo [] (l.dropWhile isWS) = wordsGo [] l := by
  intro l
  induction l with
  | nil => rfl
  | cons c t ih =>
    by_cases hc : isWS c = true
    · simp [List.dropWhile_cons, hc, wordsGo, ih]
    · simp [List.dropWhile_cons, hc]

theorem wordsOf_trimWS (l : List Char) : wordsOf (trimWS l) = wordsOf l := by
  unfold wordsOf trimWS
  have htake : ∀ x ∈ ((l.dropWhile isWS).reverse.takeWhile isWS).reverse,
      isWS x = true := by
    intro x hx
    exact List.mem_takeWhile_imp (List.mem_reverse.mp hx)
  have hdecomp : l.dropWhile isWS =
      ((l.dropWhile isWS).reverse.dropWhile isWS).reverse ++
        ((l.dropWhile isWS).reverse.takeWhile isWS).reverse := by
    conv_lhs => rw [← List.reverse_reverse (l.dropWhile isWS),
      ← List.takeWhile_append_dropWhile (p := isWS)
        (l := (l.dropWhile isWS).reverse)]
    rw [List.reverse_append]
  calc wordsGo [] (((l.dropWhile isWS).reverse.dropWhile isWS).reverse)
      = wordsGo [] (((l.dropWhile isWS).reverse.dropWhile isWS).reverse ++
          ((l.dropWhile isWS).reverse.takeWhile isWS).reverse) :=
        (wordsGo_append_ws _ htake _ _).symm
    _ = wordsGo [] (l.dropWhile isWS) := by rw [← hdecomp]
    _ = wordsGo [] l := wordsGo_dropWhile l

theorem collapse_words : ∀ l : List Char,
    (∀ cur, wordsGo cur (collapseGo false l) = wordsGo cur l) ∧
    (wordsGo [] (collapseGo true l) = wordsGo [] l) := by
  intro l
  induction l with
  | nil => exact ⟨fun _ => rfl, rfl⟩
  | cons c t ih =>
    constructor
    · intro cur
      by_cases hc : isWS c = true
      · cases cur with
        | nil => simp [collapseGo, hc, wordsGo, isWS_space, ih.2]
        | cons x xs => simp [collapseGo, hc, wordsGo, isWS_space, ih.2]
      · simp [collapseGo, hc, wordsGo, ih.1]
    · by_cases hc : isWS c = true
      · simp [collapseGo, hc, wordsGo, ih.2]
      · simp [collapseGo, hc, wordsGo, ih.1]

/-- Leading character (if any) is not whitespace. -/
def noLeadB : List Char → Bool
  | [] => true
  | c :: _ => !isWS c

/-- Trailing character (if any) is not whitespace. -/
def noTrailB : List Char → Bool
  | [] => true
  | [c] => !isWS c
  | _ :: c :: t => noTrailB (c :: t)

theorem noLeadB_dropWhile : ∀ l : List Char, noLeadB (l.dropWhile isWS) = true := by
  intro l
  induction l with
  | nil => rfl
  | cons c t ih =>
    by_cases hc : isWS c = true
    · simpa [List.dropWhile_cons, hc] using ih
    · simp [List.dropWhile_cons, hc, noLeadB]

theorem dropWhile_append_nonws :
    ∀ (xs : List Char) (c : Char), isWS c = false →
      (xs ++ [c]).dropWhile isWS = xs.dropWhile isWS ++ [c] := by
  intro xs c hc
  induction xs with
  | nil => simp [List.dropWhile_cons, hc]
  | cons a xs' ih =>
    by_cases ha : isWS a = true
    · simp [List.dropWhile_cons, ha, ih]
    · simp [List.dropWhile_cons, ha]

theorem noTrailB_append_singleton :
    ∀ (xs : List Char) (c : Char), noTrailB (xs ++ [c]) = !isWS c := by
  intro xs c
  induction xs with
  | nil => rfl
  | cons a xs' ih =>
    cases xs' with
    | nil => rfl
    | cons b xs'' => simpa [noTrailB] using ih

theorem noTrailB_reverse (r : List Char) : noTrailB r.reverse = noLeadB r := by
  cases r with
  | nil => rfl
  | cons c r' => simp [List.reverse_cons, noTrailB_append_singleton, noLeadB]

theorem noTrailB_trimWS (l : List Char) : noTrailB (trimWS l) = true := by
  unfold trimWS
  rw [noTrailB_reverse]
  exact noLeadB_dropWhile _

theorem noLeadB_trimWS (l : List Char) : noLeadB (trimWS l) = true := by
  unfold trimWS
  cases hm : l.dropWhile isWS with
  | nil => rfl
  | cons c t =>
    have hc : isWS c = false := by
      have := noLeadB_dropWhile l
      rw [hm] at this
      simpa [noLeadB] using this
    rw [List.reverse_cons, dropWhile_append_nonws _ _ hc, List.reverse_append]
    simp [noLeadB, hc]

theorem collapse_canon : ∀ m : List Char, noTrailB m = true →
    (canonF false (collapseGo false m) = true) ∧
    (m ≠ [] → canonF true (collapseGo true m) = true) := by
  intro m
  induction m with
  | nil => exact fun _ => ⟨rfl, fun hne => absurd rfl hne⟩
  | cons c t ih =>
    intro h
    cases t with
    | nil =>
      have hc : isWS c = false := by simpa [noTrailB] using h
      have hcs : ¬ c = ' ' := ne_space_of_not_isWS hc
      constructor
      · rw [collapseGo_nonws false hc, canonF_cons_nonspace false hcs]
        simp [hc, collapseGo, canonF]
      · intro _
        rw [collapseGo_nonws true hc, canonF_cons_nonspace true hcs]
        simp [hc, collapseGo, canonF]
    | cons d t' =>
      have hnt : noTrailB (d :: t') = true := by simpa [noTrailB] using h
      have iht := ih hnt
      constructor
      · by_cases hc : isWS c = true
        · rw [collapseGo_false_ws hc, canonF_false_space]
          exact iht.2 (by simp)
        · have hcb := toFalse hc
          have hcs := ne_space_of_not_isWS hcb
          rw [collapseGo_nonws false hcb, canonF_cons_nonspace false hcs]
          simp [hcb, iht.1]
      · intro _
        by_cases hc : isWS c = true
        · rw [collapseGo_true_ws hc]
          exact iht.2 (by simp)
        · have hcb := toFalse hc
          have hcs := ne_space_of_not_isWS hcb
          rw [collapseGo_nonws true hcb, canonF_cons_nonspace true hcs]
          simp [hcb, iht.1]

theorem collapse_noLead (m : List Char) (h : noLeadB m = true) :
    noLeadB (collapseGo false m) = true := by
  cases m with
  | nil => rfl
  | cons c t =>
    have hc : isWS c = false := by simpa [noLeadB] using h
    simp [collapseGo, hc, noLeadB]

theorem canonF_true_of_noLead (n : List Char) (hl : noLeadB n = true)
    (hn : n ≠ []) (hc : canonF false n = true) : canonF true n = true := by
  cases n with
  | nil => exact absurd rfl hn
  | cons c t =>
    have hcw : isWS c = false := by simpa [noLeadB] using hl
    have hcs : ¬ c = ' ' := ne_space_of_not_isWS hcw
    simpa [canonF, hcs] using hc

theorem joinSp_wordsGo_canon : ∀ l : List Char,
    (∀ cur : List Char, cur ≠ [] → canonF false l = true →
      joinSp (wordsGo cur l) = cur.reverse ++ l) ∧
    (canonF true l = true → joinSp (wordsGo [] l) = l) := by
  intro l
  induction l with
  | nil =>
    constructor
    · intro cur hcur _
      cases cur with
      | nil => exact absurd rfl hcur
      | cons x xs => simp [wordsGo, joinSp]
    · intro h
      simp [canonF] at h
  | cons c t ih =>
    constructor
    · intro cur hcur hcf
      by_cases hc : c = ' '
      · subst hc
        rw [canonF_false_space] at hcf
        cases t with
        | nil => simp [canonF] at hcf
        | cons d t' =>
          have hds : ¬ d = ' ' := by
            intro he
            rw [he, canonF_space_cons] at hcf
            simp at hcf
          have hd : isWS d = false ∧ canonF false t' = true := by
            rw [canonF_cons_nonspace true hds] at hcf
            simpa using hcf
          have hwne : wordsGo [] (d :: t') ≠ [] := by
            rw [wordsGo_cons_nonws hd.1]
            exact wordsGo_ne_nil t' [d] (by simp)
          cases cur with
          | nil => exact absurd rfl hcur
          | cons x xs =>
            rw [wordsGo_cons_ws_cons isWS_space x xs (d :: t')]
            rw [joinSp_cons _ _ hwne, ih.2 hcf]
      · have hcc : isWS c = false ∧ canonF false t = true := by
          rw [canonF_cons_nonspace false hc] at hcf
          simpa using hcf
        rw [wordsGo_cons_nonws hcc.1]
        rw [ih.1 (c :: cur) (by simp) hcc.2]
        simp
    · intro hct
      by_cases hc : c = ' '
      · rw [hc, canonF_space_cons] at hct
        simp at hct
      · have hcc : isWS c = false ∧ canonF false t = true := by
          rw [canonF_cons_nonspace true hc] at hct
          simpa using hct
        rw [wordsGo_cons_nonws hcc.1]
        rw [ih.1 [c] (by simp) hcc.2]
        simp

/-- The central characterization: normalization equals joining the words of
the input with single spaces. -/
theorem normalizeWS_eq_joinSp (s : String) :
    normalizeWS s = ⟨joinSp (wordsOf s.data)⟩ := by
  apply congrArg String.mk
  have hwords : wordsOf (collapseGo false (trimWS s.data)) = wordsOf s.data := by
    rw [show wordsOf (collapseGo false (trimWS s.data)) =
        wordsGo [] (collapseGo false (trimWS s.data)) from rfl,
      (collapse_words (trimWS s.data)).1 []]
    exact wordsOf_trimWS s.data
  rw [← hwords]
  have hcf : canonF false (collapseGo false (trimWS s.data)) = true :=
    (collapse_canon _ (noTrailB_trimWS s.data)).1
  cases hnn : collapseGo false (trimWS s.data) with
  | nil => rfl
  | cons c t =>
    have hlead : noLeadB (collapseGo false (trimWS s.data)) = true :=
      collapse_noLead _ (noLeadB_trimWS s.data)
    rw [hnn] at hcf hlead
    exact ((joinSp_wordsGo_canon (c :: t)).2
      (canonF_true_of_noLead _ hlead (by simp) hcf)).symm

theorem wordsOf_normalizeWS (s : String) :
    wordsOf (normalizeWS s).data = wordsOf s.data := by
  rw [show (normalizeWS s).data = collapseGo false (trimWS s.data) from rfl,
    show wordsOf (collapseGo false (trimWS s.data)) =
      wordsGo [] (collapseGo false (trimWS s.data)) from rfl,
    (collapse_words (trimWS s.data)).1 []]
  exact wordsOf_trimWS s.data

/-- Claim C9: candidate normalization is whitespace-insensitive — two
strings with the same whitespace-separated words (i.e. differing only in
leading/trailing whitespace or in runs of internal whitespace) normalize
to the same string and therefore hash identically; normalization is
idempotent; and the concrete pair from the spec agrees. -/
theorem normalizeWS_whitespace_insensitive :
    (∀ s1 s2 : String, wordsOf s1.data = wordsOf s2.data →
      normalizeWS s1 = normalizeWS s2 ∧
      hashFingerprint (normalizeWS s1) = hashFingerprint (normalizeWS s2)) ∧
    (∀ s : String, normalizeWS (normalizeWS s) = normalizeWS s) ∧
    normalizeWS "  a  b " = "a b" ∧
    hashFingerprint (normalizeWS "  a  b ") = hashFingerprint "a b" := by
  refine ⟨?_, ?_, ?_, ?_⟩
  · intro s1 s2 hw
    have heq : normalizeWS s1 = normalizeWS s2 := by
      rw [normalizeWS_eq_joinSp s1, normalizeWS_eq_joinSp s2, hw]
    exact ⟨heq, by rw [heq]⟩
  · intro s
    rw [normalizeWS_eq_joinSp (normalizeWS s), wordsOf_normalizeWS s,
      ← normalizeWS_eq_joinSp s]
  · decide
  · rw [show normalizeWS "  a  b " = "a b" by decide]

/-- Witness for `normalizeWS_whitespace_insensitive` at the concrete pair
from the specification. -/
theorem normalizeWS_whitespace_insensitive_witness :
    wordsOf ("  a  b " : String).data = wordsOf ("a b" : String).data ∧
    (normalizeWS "  a  b " = normalizeWS "a b" ∧
      hashFingerprint (normalizeWS "  a  b ") =
        hashFingerprint (normalizeWS "a b")) :=
  ⟨by decide, normalizeWS_whitespace_insensitive.1 "  a  b " "a b" (by decide)⟩

/-! ## Claim C10 -/

/-- Whether an outcome of the selector carries `key` as its
`fingerprintHash` field (vacuously true for a thrown error). -/
def fpAgreesB (e : Except SelError SelResult) (key : String) : Bool :=
  match e with
  | .ok r => r.fingerprintHash == key
  | .error _ => true

theorem exhaustLoop_fpAgrees (cands avoid : List String) (key : String) :
    ∀ fuel st, fpAgreesB (exhaustLoop cands avoid key st fuel) key = true := by
  intro fuel
  induction fuel with
  | zero =>
    intro st
    cases cands with
    | nil => rfl
    | cons c cs => simp [exhaustLoop, fpAgreesB]
  | succ n ih =>
    intro st
    simp only [exhaustLoop]
    cases hg : cands.get? (SplitMix64.nextIntN st cands.length).2 with
    | none => simp [hg, fpAgreesB]
    | some c =>
      by_cases hmem : hashFingerprint (normalizeWS c) ∈ avoid
      · simp [hg, hmem, ih]
      · simp [hg, hmem, fpAgreesB]

/-- Claim C10: on every input, the `fingerprintHash` field of any result
returned by `selectComplimentFromCandidates` equals
`computeEntropyKey(signals, userKey, env, nonce)`: both are the SHA-256
digest of the same `buildFingerprint` string, on every return path. -/
theorem selector_fingerprintHash_is_entropy_key (fmt : ℚ → ℚ → String)
    (numStr : ℚ → String) (signals : UserSignals) (userKey : String)
    (env : EnvData) (candidates avoidHashes : List String)
    (nonce : Option String) :
    fpAgreesB
      (selectComplimentFromCandidates fmt numStr signals userKey env
        candidates avoidHashes nonce)
      (computeEntropyKey fmt numStr signals userKey env nonce) = true := by
  rw [computeEntropyKey]
  by_cases h0 : candidates.length = 0
  · simp [selectComplimentFromCandidates, h0, fpAgreesB]
  · simp only [selectComplimentFromCandidates, if_neg h0]
    by_cases hv :
        (dedupFilter
          (candidates.map fun text =>
            (normalizeWS text, hashFingerprint (normalizeWS text)))
          avoidHashes []).length = 0
    · rw [if_pos hv]
      exact exhaustLoop_fpAgrees _ _ _ _ _
    · rw [if_neg hv]
      cases hg :
          (dedupFilter
            (candidates.map fun text =>
              (normalizeWS text, hashFingerprint (normalizeWS text)))
            avoidHashes []).get?
            (SplitMix64.nextIntN
              (hashToSeed
                (hashFingerprint
                  (buildFingerprint fmt numStr signals userKey env nonce)))
              (dedupFilter
                (candidates.map fun text =>
                  (normalizeWS text, hashFingerprint (normalizeWS text)))
                avoidHashes []).length).2 with
      | none => simp [hg, fpAgreesB]
      | some sel => simp [hg, fpAgreesB]

/-! ## Claim C3 -/

/-- Whether an outcome of the selector avoids the avoid list: any returned
result has a `complimentHash` outside `avoid` (vacuously true for a thrown
error, which returns no hash at all). -/
def avoidRespectedB (e : Except SelError SelResult) (avoid : List String) : Bool :=
  match e with
  | .ok r => !(decide (r.complimentHash ∈ avoid))
  | .error _ => true

theorem dedupFilter_not_avoided :
    ∀ (l : List (String × String)) (avoid seen : List String) (p : String × String),
      p ∈ dedupFilter l avoid seen → p.2 ∉ avoid := by
  intro l
  induction l with
  | nil => intro avoid seen p hp; simp [dedupFilter] at hp
  | cons q rest ih =>
    intro avoid seen p hp
    simp only [dedupFilter] at hp
    by_cases hq : q.2 ∈ seen ∨ q.2 ∈ avoid
    · rw [if_pos hq] at hp
      exact ih avoid seen p hp
    · rw [if_neg hq] at hp
      rcases List.mem_cons.mp hp with h | h
      · subst h
        exact (not_or.mp hq).2
      · exact ih avoid _ p h

theorem dedupFilter_ne_nil :
    ∀ (l : List (String × String)) (avoid seen : List String),
      (∃ p ∈ l, p.2 ∉ avoid ∧ p.2 ∉ seen) → dedupFilter l avoid seen ≠ [] := by
  intro l
  induction l with
  | nil =>
    rintro avoid seen ⟨p, hp, -, -⟩
    simp at hp
  | cons q rest ih =>
    rintro avoid seen ⟨p, hp, hpa, hps⟩
    simp only [dedupFilter]
    by_cases hq : q.2 ∈ seen ∨ q.2 ∈ avoid
    · rw [if_pos hq]
      apply ih
      rcases List.mem_cons.mp hp with h | h
      · subst h
        rcases hq with h1 | h1
        · exact absurd h1 hps
        · exact absurd h1 hpa
      · exact ⟨p, h, hpa, hps⟩
    · rw [if_neg hq]
      simp

/-- Claim C3: whenever at least one candidate normalizes to a hash outside
the avoid list (the claim's gloss of its cardinality condition:
"at least one non-avoided candidate exists"), the batch-dedup filter is
non-empty, the selector takes the step-5 branch, and any result it returns
carries a hash outside `avoidHashes`. -/
theorem selector_respects_avoid_set (fmt : ℚ → ℚ → String)
    (numStr : ℚ → String) (signals : UserSignals) (userKey : String)
    (env : EnvData) (candidates avoidHashes : List String)
    (nonce : Option String)
    (hex : ∃ c ∈ candidates, hashFingerprint (normalizeWS c) ∉ avoidHashes) :
    avoidRespectedB
      (selectComplimentFromCandidates fmt numStr signals userKey env
        candidates avoidHashes nonce)
      avoidHashes = true := by
  obtain ⟨c, hc, hca⟩ := hex
  have h0 : ¬ candidates.length = 0 := by
    intro h
    rw [List.length_eq_zero] at h
    subst h
    simp at hc
  have hvne :
      dedupFilter
        (candidates.map fun text =>
          (normalizeWS text, hashFingerprint (normalizeWS text)))
        avoidHashes [] ≠ [] := by
    apply dedupFilter_ne_nil
    refine ⟨(normalizeWS c, hashFingerprint (normalizeWS c)), ?_, hca, by simp⟩
    exact List.mem_map_of_mem _ hc
  have hvl :
      ¬ (dedupFilter
          (candidates.map fun text =>
            (normalizeWS text, hashFingerprint (normalizeWS text)))
          avoidHashes []).length = 0 := by
    rwa [ne_eq, ← List.length_eq_zero] at hvne
  simp only [selectComplimentFromCandidates, if_neg h0, if_neg hvl]
  cases hg :
      (dedupFilter
        (candidates.map fun text =>
          (normalizeWS text, hashFingerprint (normalizeWS text)))
        avoidHashes []).get?
        (SplitMix64.nextIntN
          (hashToSeed
            (hashFingerprint
              (buildFingerprint fmt numStr signals userKey env nonce)))
          (dedupFilter
            (candidates.map fun text =>
              (normalizeWS text, hashFingerprint (normalizeWS text)))
            avoidHashes []).length).2 with
  | none => simp [hg, avoidRespectedB]
  | some sel =>
    have hmem := List.get?_mem hg
    have hna := dedupFilter_not_avoided _ _ _ _ hmem
    simp [hg, avoidRespectedB, hna]

/-- Witness for `selector_respects_avoid_set`: a pool with one candidate
and an empty avoid list. -/
theorem selector_respects_avoid_set_witness :
    (∃ c ∈ ["X"], hashFingerprint (normalizeWS c) ∉ ([] : List String)) ∧
    avoidRespectedB
      (selectComplimentFromCandidates fmtZ numStrQ sig0 "u1" envC
        ["X"] [] none) [] = true :=
  ⟨⟨"X", by simp, by simp⟩,
   selector_respects_avoid_set fmtZ numStrQ sig0 "u1" envC ["X"] [] none
     ⟨"X", by simp, by simp⟩⟩

/-! ## Claim C8 -/

theorem weightedSelectGo_mem {α : Type} :
    ∀ (l : List (α × ℚ)) (u : ℚ) (x : α),
      weightedSelectGo u l = some x → ∃ w, (x, w) ∈ l := by
  intro l
  induction l with
  | nil => intro u x h; simp [weightedSelectGo] at h
  | cons p rest ih =>
    intro u x h
    obtain ⟨px, pw⟩ := p
    simp only [weightedSelectGo] at h
    by_cases hc : u - pw ≤ 0
    · rw [if_pos hc] at h
      refine ⟨pw, ?_⟩
      rw [← Option.some.inj h]
      exact List.mem_cons_self _ _
    · rw [if_neg hc] at h
      obtain ⟨w, hw⟩ := ih _ _ h
      exact ⟨w, List.mem_cons_of_mem _ hw⟩

theorem weightedSelect_mem {α : Type} (items : List α) (w : List ℚ) (u : ℚ)
    (h : items ≠ []) : ∃ x ∈ items, weightedSelect items w u = some x := by
  unfold weightedSelect
  cases hg : weightedSelectGo (u * w.foldl (· + ·) 0) (items.zip w) with
  | some x =>
    obtain ⟨wt, hwt⟩ := weightedSelectGo_mem _ _ _ hg
    exact ⟨x, (List.of_mem_zip hwt).1, by simp [hg]⟩
  | none =>
    exact ⟨items.getLast h, List.getLast_mem h,
      by simp [hg, List.getLast?_eq_getLast _ h]⟩

/-- Claim C8: `generateCompliment` is a pure function of its arguments
(determinism), and its output is always exactly
`opener ++ " " ++ trait ++ ". " ++ evidence ++ ". " ++ closer` for members
of the four fixed phrase banks (the post-composition punctuation branches
are the identity). -/
theorem generateCompliment_shape :
    (∀ (norm norm2 : ℚ → ℚ → ℚ) (keyHex keyHex2 : String) (p c i p2 c2 i2 : ℚ),
        norm = norm2 → keyHex = keyHex2 → p = p2 → c = c2 → i = i2 →
        generateCompliment norm keyHex p c i =
          generateCompliment norm2 keyHex2 p2 c2 i2) ∧
    (∀ (norm : ℚ → ℚ → ℚ) (keyHex : String) (p c i : ℚ),
        ∃ o ∈ openers, ∃ t ∈ traitStatements, ∃ e ∈ evidenceLines,
          ∃ cl ∈ closers,
            generateCompliment norm keyHex p c i =
              o ++ " " ++ t ++ ". " ++ e ++ ". " ++ cl) := by
  constructor
  · intro norm norm2 keyHex keyHex2 p c i p2 c2 i2 h1 h2 h3 h4 h5
    subst h1; subst h2; subst h3; subst h4; subst h5
    rfl
  · intro norm keyHex p c i
    obtain ⟨o, ho, heo⟩ := weightedSelect_mem openers
      (openers.map fun _ => 1.0)
      (SplitMix64.nextVal (hashToSeed keyHex)).2 (by simp [openers])
    obtain ⟨t, ht, het⟩ := weightedSelect_mem traitStatements
      ((List.range traitStatements.length).map
        (styleWeight (computeStyleVector norm p c i)))
      (SplitMix64.nextVal (SplitMix64.nextVal (hashToSeed keyHex)).1).2
      (by simp [traitStatements])
    obtain ⟨e, he, hee⟩ := weightedSelect_mem evidenceLines
      ((List.range evidenceLines.length).map
        (styleWeight (computeStyleVector norm p c i)))
      (SplitMix64.nextVal
        (SplitMix64.nextVal (SplitMix64.nextVal (hashToSeed keyHex)).1).1).2
      (by simp [evidenceLines])
    obtain ⟨cl, hcl, hec⟩ := weightedSelect_mem closers
      (closers.map fun _ =>
        0.8 + (computeStyleVector norm p c i).softness * 0.4)
      (SplitMix64.nextVal
        (SplitMix64.nextVal
          (SplitMix64.nextVal (SplitMix64.nextVal (hashToSeed keyHex)).1).1).1).2
      (by simp [closers])
    refine ⟨o, ho, t, ht, e, he, cl, hcl, ?_⟩
    simp only [generateCompliment]
    rw [heo, het, hee, hec]
    rfl

/-- Witness for the determinism conjunct of `generateCompliment_shape` at a
concrete argument tuple. -/
theorem generateCompliment_shape_witness :
    generateCompliment (fun _ _ => 0) "00" 0 0 0 =
      generateCompliment (fun _ _ => 0) "00" 0 0 0 :=
  generateCompliment_shape.1 _ _ _ _ _ _ _ _ _ _ rfl rfl rfl rfl rfl

/-! ## Claim C5: fingerprint sensitivity

The fingerprint is a `|`-join of labelled segments.  For a change in one
input field, all the other segments are byte-identical, so inequality of
the serialized field forces inequality of the whole string.  For the three
signal fields, the (abstracted) `toFixed(10)` segment that precedes the raw
segment also changes; splitting at the first `|` (the `toFixed` output
contains only digits and a dot, never a bar) realigns the two strings. -/

theorem bar_split : ∀ (a b u v : List Char), '|' ∉ a → '|' ∉ b →
    a ++ '|' :: u = b ++ '|' :: v → a = b ∧ u = v := by
  intro a
  induction a with
  | nil =>
    intro b u v _ hb h
    cases b with
    | nil => simpa using h
    | cons y b' =>
      simp only [List.nil_append, List.cons_append, List.cons.injEq] at h
      exact absurd (h.1 ▸ List.mem_cons_self y b') hb
  | cons x a' ih =>
    intro b u v ha hb h
    cases b with
    | nil =>
      simp only [List.nil_append, List.cons_append, List.cons.injEq] at h
      exact absurd (h.1 ▸ List.mem_cons_self x a') ha
    | cons y b' =>
      simp only [List.cons_append, List.cons.injEq] at h
      obtain ⟨hxy, h2⟩ := h
      obtain ⟨hab, huv⟩ := ih b' u v
        (fun hm => ha (List.mem_cons_of_mem _ hm))
        (fun hm => hb (List.mem_cons_of_mem _ hm)) h2
      exact ⟨by rw [hxy, hab], huv⟩

theorem str_data_inj {s t : String} (h : s.data = t.data) : s = t :=
  String.ext h

/-- The trailing nonce segment of the fingerprint as a character list. -/
def nonceTail : Option String → List Char
  | some n => if n = "" then [] else '|' :: (("nonce:" : String).data ++ n.data)
  | none => []

/-- The fingerprint string as a flat character-list concatenation. -/
theorem buildFingerprint_data (fmt : ℚ → ℚ → String) (numStr : ℚ → String)
    (signals : UserSignals) (userKey : String) (env : EnvData)
    (nonce : Option String) :
    (buildFingerprint fmt numStr signals userKey env nonce).data =
      ("m:" : String).data ++ ((fmt signals.pixelsMoved 5000).data ++
      ('|' :: (("c:" : String).data ++ ((fmt signals.clicks 10).data ++
      ('|' :: (("i:" : String).data ++ ((fmt signals.idleMs 3000).data ++
      ('|' :: (("rawM:" : String).data ++ ((numStr signals.pixelsMoved).data ++
      ('|' :: (("rawC:" : String).data ++ ((numStr signals.clicks).data ++
      ('|' :: (("rawI:" : String).data ++ ((numStr signals.idleMs).data ++
      ('|' :: (("env:" : String).data ++ ((numStr env.w).data ++
      (('x' : Char) :: ((numStr env.h).data ++
      ((':' : Char) :: ((numStr env.dpr).data ++
      ((':' : Char) :: ((numStr env.tzOffset).data ++
      ('|' :: (("user:" : String).data ++ (userKey.data ++
      nonceTail nonce)))))))))))))))))))))))))))) := by
  cases nonce with
  | none => simp [buildFingerprint, joinBar, nonceTail, String.data_append,
      List.append_assoc]
  | some n =>
    by_cases hn : n = "" <;>
      simp [buildFingerprint, joinBar, nonceTail, hn, String.data_append,
        List.append_assoc]

/-- Claim C5: identical inputs produce byte-identical fingerprints;
changing any single field — a signal (given that its JS serializations
differ, which for doubles is equivalent to the values differing, and that
the `toFixed(10)` segments are bar-free), an environment field, the user
key, or the nonce (content or presence) — changes the fingerprint string;
and the concrete nonce pair `n1`/`n2` of Scenario E yields different
fingerprint hashes. -/
theorem buildFingerprint_sensitivity :
    (∀ (fmt : ℚ → ℚ → String) (numStr : ℚ → String) (s s' : UserSignals)
        (key key' : String) (env env' : EnvData) (nonce nonce' : Option String),
        s = s' → key = key' → env = env' → nonce = nonce' →
        buildFingerprint fmt numStr s key env nonce =
          buildFingerprint fmt numStr s' key' env' nonce') ∧
    (∀ (fmt : ℚ → ℚ → String) (numStr : ℚ → String) (s1 s2 : UserSignals)
        (key : String) (env : EnvData) (nonce : Option String),
        s1.clicks = s2.clicks → s1.idleMs = s2.idleMs →
        numStr s1.pixelsMoved ≠ numStr s2.pixelsMoved →
        '|' ∉ (fmt s1.pixelsMoved 5000).data →
        '|' ∉ (fmt s2.pixelsMoved 5000).data →
        buildFingerprint fmt numStr s1 key env nonce ≠
          buildFingerprint fmt numStr s2 key env nonce) ∧
    (∀ (fmt : ℚ → ℚ → String) (numStr : ℚ → String) (s1 s2 : UserSignals)
        (key : String) (env : EnvData) (nonce : Option String),
        s1.pixelsMoved = s2.pixelsMoved → s1.idleMs = s2.idleMs →
        numStr s1.clicks ≠ numStr s2.clicks →
        '|' ∉ (fmt s1.clicks 10).data → '|' ∉ (fmt s2.clicks 10).data →
        buildFingerprint fmt numStr s1 key env nonce ≠
          buildFingerprint fmt numStr s2 key env nonce) ∧
    (∀ (fmt : ℚ → ℚ → String) (numStr : ℚ → String) (s1 s2 : UserSignals)
        (key : String) (env : EnvData) (nonce : Option String),
        s1.pixelsMoved = s2.pixelsMoved → s1.clicks = s2.clicks →
        numStr s1.idleMs ≠ numStr s2.idleMs →
        '|' ∉ (fmt s1.idleMs 3000).data → '|' ∉ (fmt s2.idleMs 3000).data →
        buildFingerprint fmt numStr s1 key env nonce ≠
          buildFingerprint fmt numStr s2 key env nonce) ∧
    (∀ (fmt : ℚ → ℚ → String) (numStr : ℚ → String) (s : UserSignals)
        (key : String) (env1 env2 : EnvData) (nonce : Option String),
        env1.h = env2.h → env1.dpr = env2.dpr → env1.tzOffset = env2.tzOffset →
        numStr env1.w ≠ numStr env2.w →
        buildFingerprint fmt numStr s key env1 nonce ≠
          buildFingerprint fmt numStr s key env2 nonce) ∧
    (∀ (fmt : ℚ → ℚ → String) (numStr : ℚ → String) (s : UserSignals)
        (key : String) (env1 env2 : EnvData) (nonce : Option String),
        env1.w = env2.w → env1.dpr = env2.dpr → env1.tzOffset = env2.tzOffset →
        numStr env1.h ≠ numStr env2.h →
        buildFingerprint fmt numStr s key env1 nonce ≠
          buildFingerprint fmt numStr s key env2 nonce) ∧
    (∀ (fmt : ℚ → ℚ → String) (numStr : ℚ → String) (s : UserSignals)
        (key : String) (env1 env2 : EnvData) (nonce : Option String),
        env1.w = env2.w → env1.h = env2.h → env1.tzOffset = env2.tzOffset →
        numStr env1.dpr ≠ numStr env2.dpr →
        buildFingerprint fmt numStr s key env1 nonce ≠
          buildFingerprint fmt numStr s key env2 nonce) ∧
    (∀ (fmt : ℚ → ℚ → String) (numStr : ℚ → String) (s : UserSignals)
        (key : String) (env1 env2 : EnvData) (nonce : Option String),
        env1.w = env2.w → env1.h = env2.h → env1.dpr = env2.dpr →
        numStr env1.tzOffset ≠ numStr env2.tzOffset →
        buildFingerprint fmt numStr s key env1 nonce ≠
          buildFingerprint fmt numStr s key env2 nonce) ∧
    (∀ (fmt : ℚ → ℚ → String) (numStr : ℚ → String) (s : UserSignals)
        (key1 key2 : String) (env : EnvData) (nonce : Option String),
        key1 ≠ key2 →
        buildFingerprint fmt numStr s key1 env nonce ≠
          buildFingerprint fmt numStr s key2 env nonce) ∧
    (∀ (fmt : ℚ → ℚ → String) (numStr : ℚ → String) (s : UserSignals)
        (key : String) (env : EnvData) (n1 n2 : String),
        n1 ≠ "" → n2 ≠ "" → n1 ≠ n2 →
        buildFingerprint fmt numStr s key env (some n1) ≠
          buildFingerprint fmt numStr s key env (some n2)) ∧
    (∀ (fmt : ℚ → ℚ → String) (numStr : ℚ → String) (s : UserSignals)
        (key : String) (env : EnvData) (n : String), n ≠ "" →
        buildFingerprint fmt numStr s key env (some n) ≠
          buildFingerprint fmt numStr s key env none) ∧
    computeEntropyKey fmtZ numStrQ sig0 "u1" envC (some "n1") ≠
      computeEntropyKey fmtZ numStrQ sig0 "u1" envC (some "n2") := by
  refine ⟨?_, ?_, ?_, ?_, ?_, ?_, ?_, ?_, ?_, ?_, ?_, ?_⟩
  · intro fmt numStr s s' key key' env env' nonce nonce' h1 h2 h3 h4
    rw [h1, h2, h3, h4]
  · intro fmt numStr s1 s2 key env nonce hcl hid hne hb1 hb2 h
    have hd := congrArg String.data h
    rw [buildFingerprint_data, buildFingerprint_data, hcl, hid] at hd
    simp only [List.append_right_inj] at hd
    obtain ⟨-, hd2⟩ := bar_split _ _ _ _ hb1 hb2 hd
    simp only [List.append_right_inj, List.cons.injEq, true_and] at hd2
    exact hne (str_data_inj (by simpa only [List.append_left_inj] using hd2))
  · intro fmt numStr s1 s2 key env nonce hpx hid hne hb1 hb2 h
    have hd := congrArg String.data h
    rw [buildFingerprint_data, buildFingerprint_data, hpx, hid] at hd
    simp only [List.append_right_inj, List.cons.injEq, true_and] at hd
    obtain ⟨-, hd2⟩ := bar_split _ _ _ _ hb1 hb2 hd
    simp only [List.append_right_inj, List.cons.injEq, true_and] at hd2
    exact hne (str_data_inj (by simpa only [List.append_left_inj] using hd2))
  · intro fmt numStr s1 s2 key env nonce hpx hcl hne hb1 hb2 h
    have hd := congrArg String.data h
    rw [buildFingerprint_data, buildFingerprint_data, hpx, hcl] at hd
    simp only [List.append_right_inj, List.cons.injEq, true_and] at hd
    obtain ⟨-, hd2⟩ := bar_split _ _ _ _ hb1 hb2 hd
    simp only [List.append_right_inj, List.cons.injEq, true_and] at hd2
    exact hne (str_data_inj (by simpa only [List.append_left_inj] using hd2))
  · intro fmt numStr s key env1 env2 nonce h1 h2 h3 hne h
    have hd := congrArg String.data h
    rw [buildFingerprint_data, buildFingerprint_data, h1, h2, h3] at hd
    simp only [List.append_right_inj, List.cons.injEq, true_and] at hd
    exact hne (str_data_inj (by simpa only [List.append_left_inj] using hd))
  · intro fmt numStr s key env1 env2 nonce h1 h2 h3 hne h
    have hd := congrArg String.data h
    rw [buildFingerprint_data, buildFingerprint_data, h1, h2, h3] at hd
    simp only [List.append_right_inj, List.cons.injEq, true_and] at hd
    exact hne (str_data_inj (by simpa only [List.append_left_inj] using hd))
  · intro fmt numStr s key env1 env2 nonce h1 h2 h3 hne h
    have hd := congrArg String.data h
    rw [buildFingerprint_data, buildFingerprint_data, h1, h2, h3] at hd
    simp only [List.append_right_inj, List.cons.injEq, true_and] at hd
    exact hne (str_data_inj (by simpa only [List.append_left_inj] using hd))
  · intro fmt numStr s key env1 env2 nonce h1 h2 h3 hne h
    have hd := congrArg String.data h
    rw [buildFingerprint_data, buildFingerprint_data, h1, h2, h3] at hd
    simp only [List.append_right_inj, List.cons.injEq, true_and] at hd
    exact hne (str_data_inj (by simpa only [List.append_left_inj] using hd))
  · intro fmt numStr s key1 key2 env nonce hne h
    have hd := congrArg String.data h
    rw [buildFingerprint_data, buildFingerprint_data] at hd
    simp only [List.append_right_inj, List.cons.injEq, true_and] at hd
    exact hne (str_data_inj (by simpa only [List.append_left_inj] using hd))
  · intro fmt numStr s key env n1 n2 hn1 hn2 hne h
    have hd := congrArg String.data h
    rw [buildFingerprint_data, buildFingerprint_data] at hd
    simp only [nonceTail, if_neg hn1, if_neg hn2] at hd
    simp only [List.append_right_inj, List.cons.injEq, true_and] at hd
    exact hne (str_data_inj hd)
  · intro fmt numStr s key env n hn h
    have hd := congrArg String.data h
    rw [buildFingerprint_data, buildFingerprint_data] at hd
    simp only [nonceTail, if_neg hn] at hd
    have hlen := congrArg List.length hd
    simp [List.length_append] at hlen
  · decide

/-- Counterexample to claim C5 as stated: the source guards the nonce
segment with a JS truthiness test (`if (sessionNonce)`), so an
empty-string nonce is treated exactly like an absent one — changing the
nonce field from absent to the empty string leaves the fingerprint
byte-identical. -/
theorem buildFingerprint_empty_nonce_counterexample :
    buildFingerprint fmtZ numStrQ sig0 "u1" envC (some "") =
      buildFingerprint fmtZ numStrQ sig0 "u1" envC none := by
  decide

/-- Witness for `buildFingerprint_sensitivity`: concrete instantiations of
each conditional conjunct, hypotheses discharged by computation. -/
theorem buildFingerprint_sensitivity_witness :
    buildFingerprint fmtZ numStrQ sig0 "u1" envC none =
      buildFingerprint fmtZ numStrQ sig0 "u1" envC none ∧
    buildFingerprint fmtZ numStrQ ⟨0, 0, 0⟩ "u1" envC none ≠
      buildFingerprint fmtZ numStrQ ⟨1, 0, 0⟩ "u1" envC none ∧
    buildFingerprint fmtZ numStrQ ⟨0, 0, 0⟩ "u1" envC none ≠
      buildFingerprint fmtZ numStrQ ⟨0, 1, 0⟩ "u1" envC none ∧
    buildFingerprint fmtZ numStrQ ⟨0, 0, 0⟩ "u1" envC none ≠
      buildFingerprint fmtZ numStrQ ⟨0, 0, 1⟩ "u1" envC none ∧
    buildFingerprint fmtZ numStrQ sig0 "u1" ⟨100, 100, 1, 0⟩ none ≠
      buildFingerprint fmtZ numStrQ sig0 "u1" ⟨200, 100, 1, 0⟩ none ∧
    buildFingerprint fmtZ numStrQ sig0 "u1" ⟨100, 100, 1, 0⟩ none ≠
      buildFingerprint fmtZ numStrQ sig0 "u1" ⟨100, 200, 1, 0⟩ none ∧
    buildFingerprint fmtZ numStrQ sig0 "u1" ⟨100, 100, 1, 0⟩ none ≠
      buildFingerprint fmtZ numStrQ sig0 "u1" ⟨100, 100, 2, 0⟩ none ∧
    buildFingerprint fmtZ numStrQ sig0 "u1" ⟨100, 100, 1, 0⟩ none ≠
      buildFingerprint fmtZ numStrQ sig0 "u1" ⟨100, 100, 1, 60⟩ none ∧
    buildFingerprint fmtZ numStrQ sig0 "u1" envC none ≠
      buildFingerprint fmtZ numStrQ sig0 "u2" envC none ∧
    buildFingerprint fmtZ numStrQ sig0 "u1" envC (some "n1") ≠
      buildFingerprint fmtZ numStrQ sig0 "u1" envC (some "n2") ∧
    buildFingerprint fmtZ numStrQ sig0 "u1" envC (some "n1") ≠
      buildFingerprint fmtZ numStrQ sig0 "u1" envC none :=
  ⟨buildFingerprint_sensitivity.1 fmtZ numStrQ sig0 sig0 "u1" "u1" envC envC
      none none rfl rfl rfl rfl,
   buildFingerprint_sensitivity.2.1 fmtZ numStrQ ⟨0, 0, 0⟩ ⟨1, 0, 0⟩ "u1" envC
      none rfl rfl (by decide) (by decide) (by decide),
   buildFingerprint_sensitivity.2.2.1 fmtZ numStrQ ⟨0, 0, 0⟩ ⟨0, 1, 0⟩ "u1"
      envC none rfl rfl (by decide) (by decide) (by decide),
   buildFingerprint_sensitivity.2.2.2.1 fmtZ numStrQ ⟨0, 0, 0⟩ ⟨0, 0, 1⟩ "u1"
      envC none rfl rfl (by decide) (by decide) (by decide),
   buildFingerprint_sensitivity.2.2.2.2.1 fmtZ numStrQ sig0 "u1"
      ⟨100, 100, 1, 0⟩ ⟨200, 100, 1, 0⟩ none rfl rfl rfl (by decide),
   buildFingerprint_sensitivity.2.2.2.2.2.1 fmtZ numStrQ sig0 "u1"
      ⟨100, 100, 1, 0⟩ ⟨100, 200, 1, 0⟩ none rfl rfl rfl (by decide),
   buildFingerprint_sensitivity.2.2.2.2.2.2.1 fmtZ numStrQ sig0 "u1"
      ⟨100, 100, 1, 0⟩ ⟨100, 100, 2, 0⟩ none rfl rfl rfl (by decide),
   buildFingerprint_sensitivity.2.2.2.2.2.2.2.1 fmtZ numStrQ sig0 "u1"
      ⟨100, 100, 1, 0⟩ ⟨100, 100, 1, 60⟩ none rfl rfl rfl (by decide),
   buildFingerprint_sensitivity.2.2.2.2.2.2.2.2.1 fmtZ numStrQ sig0 "u1" "u2"
      envC none (by decide),
   buildFingerprint_sensitivity.2.2.2.2.2.2.2.2.2.1 fmtZ numStrQ sig0 "u1"
      envC "n1" "n2" (by decide) (by decide) (by decide),
   buildFingerprint_sensitivity.2.2.2.2.2.2.2.2.2.2.1 fmtZ numStrQ sig0 "u1"
      envC "n1" (by decide)⟩

/-- Witness for `smooth01_contract` at concrete inputs. -/
theorem smooth01_contract_witness :
    smooth01 0 1 = 1 - Real.exp (-0 / 1) ∧
    smooth01 1 (-1) = 1 ∧
    smooth01 0 (-1) = 0 ∧
    (0 ≤ smooth01 0 1 ∧ smooth01 0 1 < 1) ∧
    smooth01 0 1 = 0 ∧
    smooth01 0 1 < smooth01 1 1 :=
  ⟨smooth01_contract.1 0 1 (by norm_num),
   smooth01_contract.2.1 1 (-1) (by norm_num) (by norm_num),
   smooth01_contract.2.2.1 0 (-1) (by norm_num) (by norm_num),
   smooth01_contract.2.2.2.1 0 1 (by norm_num) (by norm_num),
   smooth01_contract.2.2.2.2.1 1 (by norm_num),
   smooth01_contract.2.2.2.2.2 0 1 1 (by norm_num) (by norm_num)⟩
